import Mathlib

/-!
Verification of the Arctis Nova Pro wireless audio switcher daemon
(`arctis-audio-switcher.py`).

The development shallowly embeds the program: pure parsing routines become
Lean functions over `List Char` / `List Nat`; each fallible I/O operation of
one poll/switch cycle is represented by an entry of a `CycleEnv` record whose
`Except` values model Python exceptions; the main loop becomes an explicit
step function threading the `last_state` variable.
-/

set_option maxRecDepth 20000

/-- Headset states reported by `get_headset_state`: the Python strings
`"ON"` and `"OFF"`.  A Python `None` result (the Unknown outcome) is
modelled by `Option HS` being `none`. -/
inductive HS where
  | ON : HS
  | OFF : HS
deriving DecidableEq, Repr

/-- The two logical switch targets of the loop body: `switch_audio` called
with the headphone pattern, or with the speaker pattern. -/
inductive SwitchTarget where
  | Headphones : SwitchTarget
  | Speakers : SwitchTarget
deriving DecidableEq, Repr

/-- Configuration constant `HEADPHONE_SINK_NAME` of the source. -/
def HEADPHONE_SINK_NAME : String := "Arctis Nova Pro"

/-- Configuration constant `SPEAKER_SINK_NAME` of the source. -/
def SPEAKER_SINK_NAME : String := "Starship/Matisse"

/-- Device constant `VENDOR_ID` of the source. -/
def VENDOR_ID : String := "1038"

/-- Device constant `PRODUCT_IDS` of the source. -/
def PRODUCT_IDS : List String := ["12E0", "12E5"]

/-- Response code `HEADSET_OFFLINE` (`0x01`). -/
def HEADSET_OFFLINE : Nat := 0x01

/-- Response code `HEADSET_CHARGING` (`0x02`). -/
def HEADSET_CHARGING : Nat := 0x02

/-- Response code `HEADSET_ONLINE` (`0x08`). -/
def HEADSET_ONLINE : Nat := 0x08

/-- The `select.select([fd], [], [], 0.5)` timeout of the source, in
milliseconds. -/
def SELECT_TIMEOUT_MS : Nat := 500

/-- Test `listStarts needle hay` holds when `needle` is an initial segment of
`hay`; building block of the Python substring test `needle in hay`. -/
def listStarts : List Char → List Char → Bool
  | [], _ => true
  | _ :: _, [] => false
  | a :: as, b :: bs => a == b && listStarts as bs

/-- Test `listHas needle hay` is the Python substring test `needle in hay`
on character lists. -/
def listHas (needle : List Char) : List Char → Bool
  | [] => listStarts needle []
  | c :: rest => listStarts needle (c :: rest) || listHas needle rest

/-- Python `needle in hay` on strings. -/
def strHas (hay needle : String) : Bool :=
  listHas needle.toList hay.toList

/-- Python `str.lower()`, character by character. -/
def pyLower (s : String) : String :=
  String.mk (s.toList.map Char.toLower)

/-- Python `str.upper()`, character by character. -/
def pyUpper (s : String) : String :=
  String.mk (s.toList.map Char.toUpper)

/-- Python `str.strip()`: drop whitespace from both ends. -/
def pyTrim (s : String) : String :=
  String.mk
    (((s.toList.dropWhile Char.isWhitespace).reverse.dropWhile
      Char.isWhitespace).reverse)

/-- Split a character list at every occurrence of `sep`; the pieces keep
their order and may be empty, as in Python `str.split(sep)`. -/
def splitChar (sep : Char) : List Char → List (List Char)
  | [] => [[]]
  | c :: rest =>
    let r := splitChar sep rest
    if c == sep then [] :: r
    else
      match r with
      | [] => [[c]]
      | h :: t => (c :: h) :: t

/-- Python `str.split(sep)` for a one-character separator. -/
def pySplitOn (s : String) (sep : Char) : List String :=
  (splitChar sep s.toList).map String.mk

/-- Helper of `pySplitWs`: accumulate the current (reversed) token while
scanning. -/
def wsSplitAux (cur : List Char) : List Char → List (List Char)
  | [] => if cur = [] then [] else [cur.reverse]
  | c :: rest =>
    if c.isWhitespace then
      if cur = [] then wsSplitAux [] rest
      else cur.reverse :: wsSplitAux [] rest
    else wsSplitAux (c :: cur) rest

/-- Python `str.split()` with no separator: split on whitespace runs and
drop empty pieces. -/
def pySplitWs (s : String) : List String :=
  (wsSplitAux [] s.toList).map String.mk

/-- Python `str.isdigit()` restricted to ASCII text: nonempty and all
characters decimal digits. -/
def pyIsDigit (s : String) : Bool :=
  s.toList ≠ [] && s.toList.all Char.isDigit

/-- Python `int(...)` on a string of decimal digits. -/
def pyToNat (s : String) : Nat :=
  s.toList.foldl (fun n c => n * 10 + (c.toNat - 48)) 0

/-- Lexicographic order on character lists by code point; the order
Python's `sorted` uses on strings. -/
def listLexLe : List Char → List Char → Bool
  | [], _ => true
  | _ :: _, [] => false
  | a :: as, b :: bs =>
    if a < b then true
    else if a = b then listLexLe as bs
    else false

/-- Python's string comparison `s <= t`. -/
def pyStrLe (s t : String) : Bool :=
  listLexLe s.toList t.toList

/-- Relation form of `pyStrLe`, for sorting. -/
def pathLe (s t : String) : Prop :=
  pyStrLe s t = true

instance : DecidableRel pathLe :=
  fun a b => inferInstanceAs (Decidable (pyStrLe a b = true))

/-- Environment of one iteration of the main loop: the outcome each
fallible external operation of the cycle would have, where an
`Except.error` models a raised Python exception.

* `writeResult` — the `os.write(fd, POLL_COMMAND)` call;
* `readyAt` — the instant (ms after the write) the device becomes
  readable, `none` when it never does; `select.select` succeeds exactly
  when this is within `SELECT_TIMEOUT_MS`;
* `readResult` — the bytes `os.read(fd, 128)` would return;
* `statusStdout` — the stdout of `subprocess.run(["wpctl", "status"])`,
  an error when spawning that command raises;
* `setDefaultResult` — the exit code of
  `subprocess.run(["wpctl", "set-default", ...], check=False)`, an error
  when spawning that command raises. -/
structure CycleEnv where
  writeResult : Except String Unit
  readyAt : Option Nat
  readResult : Except String (List Nat)
  statusStdout : Except String String
  setDefaultResult : Except String Nat

/-- The readability test of `select.select([fd], [], [], 0.5)` followed by
`if not r`. -/
def selectReadable (env : CycleEnv) : Bool :=
  match env.readyAt with
  | none => false
  | some t => t ≤ SELECT_TIMEOUT_MS

/-- Function `get_headset_state` of the source: write the poll command, wait for
readability with a 500 ms bound, read up to 128 bytes, and decode
`response[15]`; every exception and every malformed response yields `none`
(Python `None`). -/
def get_headset_state (env : CycleEnv) : Option HS :=
  match env.writeResult with
  | .error _ => none
  | .ok _ =>
    if !selectReadable env then none
    else
      match env.readResult with
      | .error _ => none
      | .ok response =>
        if response.length < 16 then none
        else
          let status_byte := response.getD 15 0
          if status_byte = HEADSET_OFFLINE then some HS.OFF
          else if status_byte = HEADSET_ONLINE ∨ status_byte = HEADSET_CHARGING then
            some HS.ON
          else none

/-- The switch direction selected by the loop body for a definitive
state: `"ON"` switches to the headphones, `"OFF"` to the speakers. -/
def targetFor : HS → SwitchTarget
  | HS.ON => SwitchTarget.Headphones
  | HS.OFF => SwitchTarget.Speakers

/-- The sink-name pattern `switch_audio` is invoked with for each
switch target. -/
def patternFor : SwitchTarget → String
  | SwitchTarget.Headphones => HEADPHONE_SINK_NAME
  | SwitchTarget.Speakers => SPEAKER_SINK_NAME

/-- One iteration of the state logic of `main` (lines
`if state and state != last_state: ... last_state = state`): given the
held `last_state` and the poll outcome, return the new `last_state` and
the switch action invoked, if any. -/
def loopIter (last state : Option HS) : Option HS × Option SwitchTarget :=
  if state ≠ none ∧ state ≠ last then (state, state.map targetFor)
  else (last, none)

/-- The main loop run over a finite sequence of poll outcomes from a given
held state, collecting the switch actions invoked, in order. -/
def runLoop : Option HS → List (Option HS) → List SwitchTarget
  | _, [] => []
  | last, s :: rest =>
    match loopIter last s with
    | (last', none) => runLoop last' rest
    | (last', some tgt) => tgt :: runLoop last' rest

/-- One representative per maximal run of adjacent equal elements, given
the value `prev` that opened the current run. -/
def onePerRunFrom : HS → List HS → List HS
  | _, [] => []
  | prev, b :: rest =>
    if b = prev then onePerRunFrom prev rest else b :: onePerRunFrom b rest

/-- One representative per maximal run of adjacent equal elements. -/
def onePerRun : List HS → List HS
  | [] => []
  | a :: rest => a :: onePerRunFrom a rest

/-- The loop body of `find_sink_id`, over the list of stdout lines, with
the `in_sinks_section` flag as explicit state.  Mirrors the source line by
line: a line containing `"Sinks:"` sets the flag and is skipped; inside
the section, a line with a `":"` but no `"│"` ends the scan (`break`,
hence result `None`); a line matching the name pattern case-insensitively
and containing `"Analog Stereo"` or `"Stereo"` has its leading number
extracted — `parts[0].strip().split()[-1]` raising `IndexError` on an
empty token list is caught by the enclosing `except` and yields `None`
for the whole call, while a non-digit token merely moves to the next
line. -/
def findSinkLoop (name_pattern : String) : Bool → List String → Option Nat
  | _, [] => none
  | in_sinks, line :: rest =>
    if strHas line "Sinks:" then findSinkLoop name_pattern true rest
    else if in_sinks && (strHas line ":" && !strHas line "│") then none
    else if in_sinks && strHas (pyLower line) (pyLower name_pattern) then
      if strHas line "Analog Stereo" || strHas line "Stereo" then
        let parts := pySplitOn line '.'
        if parts.length ≥ 2 then
          match (pySplitWs (pyTrim (parts.headD ""))).getLast? with
          | some num_part =>
            if pyIsDigit num_part then some (pyToNat num_part)
            else findSinkLoop name_pattern in_sinks rest
          | none => none
        else findSinkLoop name_pattern in_sinks rest
      else findSinkLoop name_pattern in_sinks rest
    else findSinkLoop name_pattern in_sinks rest

/-- The leading-identifier extraction applied to a matched line:
`parts = line.split(".")`; when there are at least two parts, the last
whitespace token of `parts[0].strip()` is taken and accepted when it is
all digits.  `none` covers every non-accepting outcome. -/
def extractId (line : String) : Option Nat :=
  let parts := pySplitOn line '.'
  if parts.length ≥ 2 then
    match (pySplitWs (pyTrim (parts.headD ""))).getLast? with
    | some num_part => if pyIsDigit num_part then some (pyToNat num_part) else none
    | none => none
  else none

/-- Function `find_sink_id` of the source: run `wpctl status` (an error models a
raised exception, which the function's `except` turns into `None`), split
its stdout on newlines, and scan with `findSinkLoop` starting outside the
Sinks section. -/
def find_sink_id (name_pattern : String) (stdout : Except String String) : Option Nat :=
  match stdout with
  | .error _ => none
  | .ok out => findSinkLoop name_pattern false (pySplitOn out '\n')

/-- What one `switch_audio` call did: whether it ran at all (a sink lookup
was attempted) and, when a sink was found, the identifier passed to
`wpctl set-default`. -/
structure SwitchRecord where
  attempted : Bool
  issued : Option Nat
deriving DecidableEq, Repr

/-- Function `switch_audio` of the source: look the sink up by pattern; on `None`
print a warning and return (no command issued); otherwise invoke
`wpctl set-default` — spawning that command is NOT inside any
`try`/`except`, so a spawn exception propagates to the caller, while a
non-zero exit code is ignored (`check=False`). -/
def switch_audio (sink_name_pattern : String) (env : CycleEnv) :
    Except String SwitchRecord :=
  match find_sink_id sink_name_pattern env.statusStdout with
  | none => .ok ⟨true, none⟩
  | some sink_id =>
    match env.setDefaultResult with
    | .error e => .error e
    | .ok _ => .ok ⟨true, some sink_id⟩

/-- One full iteration of the `while True` body of `main`: poll, run the
state logic (`loopIter`), and perform the selected switch, threading any
uncaught exception outward.  Returns the new `last_state` and the switch
record of the cycle. -/
def mainCycle (last : Option HS) (env : CycleEnv) :
    Except String (Option HS × SwitchRecord) :=
  let state := get_headset_state env
  match loopIter last state with
  | (last', none) => .ok (last', ⟨false, none⟩)
  | (last', some tgt) =>
    (switch_audio (patternFor tgt) env).map fun r => (last', r)

/-- Contents of a `uevent` file qualify when, after upper-casing, they contain the
vendor ID, one of the accepted product IDs, and `"INPUT4"` as
substrings. -/
def ueventQualifies (uevent : String) : Bool :=
  let u := pyUpper uevent
  strHas u VENDOR_ID &&
    (PRODUCT_IDS.any fun pid => strHas u pid) &&
    strHas u "INPUT4"

/-- A device node qualifies when its uevent metadata is present
(readable) and qualifies; `none` models both a missing `uevent` file and
an exception while reading it, each of which the loop skips. -/
def deviceQualifies (meta : String → Option String) (device : String) : Bool :=
  match meta device with
  | none => false
  | some uevent => ueventQualifies uevent

/-- The `for device in sorted(hidraw_devices)` loop of
`find_hidraw_device`, over an already-sorted list of node paths, with
`meta` giving each node's uevent text.  Each failed check `continue`s;
the first node passing all three checks is returned. -/
def locateLoop (meta : String → Option String) : List String → Option String
  | [] => none
  | device :: rest =>
    match meta device with
    | none => locateLoop meta rest
    | some uevent =>
      let u := pyUpper uevent
      if !strHas u VENDOR_ID then locateLoop meta rest
      else if !(PRODUCT_IDS.any fun pid => strHas u pid) then locateLoop meta rest
      else if !strHas u "INPUT4" then locateLoop meta rest
      else some device

/-- Function `find_hidraw_device` of the source: sort the globbed `/dev/hidraw*`
paths (Python `sorted`, lexicographic by code point) and scan them in
order. -/
def find_hidraw_device (meta : String → Option String) (paths : List String) :
    Option String :=
  locateLoop meta (List.insertionSort pathLe paths)

/-- The `while True` loop of `main` run over a finite list of cycle
environments (the cycles that happen before the interrupt arrives),
threading `last_state`; an uncaught exception of a cycle aborts the
loop. -/
def runCycles : Option HS → List CycleEnv → Except String (Option HS)
  | last, [] => .ok last
  | last, env :: rest =>
    match mainCycle last env with
    | .error e => .error e
    | .ok (last', _) => runCycles last' rest

/-- Environment of one whole process run: the visible hidraw paths and
their metadata, whether `os.open` succeeds (`false` models
`PermissionError`), and the environments of the cycles executed before
the interrupt is delivered. -/
structure MainEnv where
  paths : List String
  meta : String → Option String
  openOk : Bool
  cycles : List CycleEnv

/-- Observable outcome of a process run: the exit code, and whether the
device handle was closed (the `finally: os.close(fd)`). -/
structure MainResult where
  code : Nat
  closed : Bool
deriving DecidableEq, Repr

/-- Function `main` of the source: locate the device (exit 1 when none), open it
(exit 1 on `PermissionError`), then run the loop; a `KeyboardInterrupt`
after the given cycles is caught and the process exits 0 with the handle
closed; an exception escaping a cycle still closes the handle
(`finally`) but terminates the interpreter with a traceback, exit
code 1. -/
def mainRun (m : MainEnv) : MainResult :=
  match find_hidraw_device m.meta m.paths with
  | none => ⟨1, false⟩
  | some _ =>
    if !m.openOk then ⟨1, false⟩
    else
      match runCycles none m.cycles with
      | .ok _ => ⟨0, true⟩
      | .error _ => ⟨1, true⟩

/-- Synthetic `wpctl status` stdout: a Devices section whose raw device
entry nominally matches the headphone pattern, a Sinks section holding
the raw-named entry 49 (no `"Stereo"`) and the concrete stereo playback
entry 52, then a following section whose entry would match but sits
beyond the section break. -/
def wpctlOut52 : String :=
  "Audio\n ├─ Devices:\n │      46. Arctis Nova Pro Wireless [alsa]\n │  \n ├─ Sinks:\n │      49. Arctis Nova Pro Wireless\n │  *   52. Arctis Nova Pro Wireless Analog Stereo [vol: 0.95]\n ├─ Streams:\n │      60. Arctis Nova Pro Analog Stereo Game"

/-- The same listing with the stereo descriptor of entry 52 written in
lower case. -/
def wpctlOut52lower : String :=
  "Audio\n ├─ Devices:\n │      46. Arctis Nova Pro Wireless [alsa]\n │  \n ├─ Sinks:\n │      49. Arctis Nova Pro Wireless\n │  *   52. arctis nova pro wireless analog stereo [vol: 0.95]\n ├─ Streams:\n │      60. Arctis Nova Pro Analog Stereo Game"

/-- A hidraw metadata table with the control interface at `hidraw4` and
other interfaces of the same device at neighbouring nodes. -/
def sampleMeta : String → Option String :=
  fun d =>
    if d = "/dev/hidraw3" then some "HID_ID=0003:00001038:000012E0\nHID_PHYS=usb-0000:2e:00.1-4/input3"
    else if d = "/dev/hidraw4" then some "HID_ID=0003:00001038:000012E0\nHID_PHYS=usb-0000:2e:00.1-4/input4"
    else if d = "/dev/hidraw5" then some "HID_ID=0003:00001038:000012E0\nHID_PHYS=usb-0000:2e:00.1-4/input4"
    else none

/-- A cycle environment in which the switch-target sink lookup finds
nothing: the poll reports Offline, but the sink listing has no Sinks
section at all. -/
def envMiss : CycleEnv :=
  ⟨.ok (), some 0, .ok (List.replicate 15 0 ++ [1]), .ok "nothing here", .ok 0⟩

/-- A sink listing in which the speaker pattern resolves to sink 43. -/
def wpctlOutSpeakers : String :=
  "Audio\n ├─ Sinks:\n │      43. Family 17h Starship/Matisse Analog Stereo [vol: 0.40]\n ├─ Streams:"

/-- A cycle environment whose poll reports Offline, whose sink listing
resolves the speaker pattern, and in which spawning
`wpctl set-default` raises (e.g. the binary has vanished between the two
`subprocess.run` calls). -/
def envSpawnFail : CycleEnv :=
  ⟨.ok (), some 0, .ok (List.replicate 15 0 ++ [1]), .ok wpctlOutSpeakers,
    .error "FileNotFoundError"⟩

/-! ## Helper lemmas -/

theorem listLexLe_total : ∀ as bs : List Char,
    listLexLe as bs = true ∨ listLexLe bs as = true := by
  intro as
  induction as with
  | nil => intro bs; left; simp [listLexLe]
  | cons a as ih =>
    intro bs
    cases bs with
    | nil => right; simp [listLexLe]
    | cons b bs' =>
      rcases lt_trichotomy a b with h | h | h
      · left; simp [listLexLe, h]
      · subst h
        rcases ih bs' with h' | h'
        · left; simp [listLexLe, lt_irrefl, h']
        · right; simp [listLexLe, lt_irrefl, h']
      · right; simp [listLexLe, h]

theorem listLexLe_trans : ∀ as bs cs : List Char,
    listLexLe as bs = true → listLexLe bs cs = true → listLexLe as cs = true := by
  intro as
  induction as with
  | nil => intro bs cs h1 h2; simp [listLexLe]
  | cons a as ih =>
    intro bs cs h1 h2
    cases bs with
    | nil => simp [listLexLe] at h1
    | cons b bs' =>
      cases cs with
      | nil => simp [listLexLe] at h2
      | cons c cs' =>
        by_cases hab : a < b
        · by_cases hbc : b < c
          · simp [listLexLe, lt_trans hab hbc]
          · by_cases hbc' : b = c
            · subst hbc'; simp [listLexLe, hab]
            · simp [listLexLe, hbc, hbc'] at h2
        · by_cases hab' : a = b
          · subst hab'
            simp only [listLexLe, lt_irrefl, if_false, if_pos rfl] at h1
            by_cases hac : a < c
            · simp [listLexLe, hac]
            · by_cases hac' : a = c
              · subst hac'
                simp only [listLexLe, lt_irrefl, if_false, if_pos rfl] at h2 ⊢
                exact ih bs' cs' h1 h2
              · simp [listLexLe, hac, hac'] at h2
          · simp [listLexLe, hab, hab'] at h1

theorem listLexLe_antisymm : ∀ as bs : List Char,
    listLexLe as bs = true → listLexLe bs as = true → as = bs := by
  intro as
  induction as with
  | nil =>
    intro bs h1 h2
    cases bs with
    | nil => rfl
    | cons b bs' => simp [listLexLe] at h2
  | cons a as ih =>
    intro bs h1 h2
    cases bs with
    | nil => simp [listLexLe] at h1
    | cons b bs' =>
      by_cases hab : a < b
      · have hba : ¬ b < a := lt_asymm hab
        have hba' : ¬ b = a := fun h => absurd hab (by simp [h])
        simp [listLexLe, hba, hba'] at h2
      · by_cases hab' : a = b
        · subst hab'
          simp only [listLexLe, lt_irrefl, if_false, if_pos rfl] at h1 h2
          rw [ih bs' h1 h2]
        · simp [listLexLe, hab, hab'] at h1

instance : IsTotal String pathLe :=
  ⟨fun a b => listLexLe_total a.toList b.toList⟩

instance : IsTrans String pathLe :=
  ⟨fun a b c h1 h2 => listLexLe_trans a.toList b.toList c.toList h1 h2⟩

instance : IsAntisymm String pathLe :=
  ⟨fun a b h1 h2 => by
    have h := listLexLe_antisymm a.toList b.toList h1 h2
    cases a; cases b; exact congrArg String.mk h⟩

theorem runLoop_some (seq : List (Option HS)) : ∀ a : HS,
    runLoop (some a) seq = (onePerRunFrom a (seq.filterMap id)).map targetFor := by
  induction seq with
  | nil => intro a; rfl
  | cons s rest ih =>
    intro a
    cases s with
    | none =>
      simpa [runLoop, loopIter] using ih a
    | some b =>
      by_cases hb : b = a
      · subst hb
        simpa [runLoop, loopIter, onePerRunFrom] using ih b
      · simp [runLoop, loopIter, onePerRunFrom, hb, ih b]

theorem runLoop_none (seq : List (Option HS)) :
    runLoop none seq = (onePerRun (seq.filterMap id)).map targetFor := by
  induction seq with
  | nil => rfl
  | cons s rest ih =>
    cases s with
    | none => simpa [runLoop, loopIter] using ih
    | some a =>
      simp [runLoop, loopIter, onePerRun, runLoop_some rest a]

theorem listHas_of_starts : ∀ n hay : List Char,
    listStarts n hay = true → listHas n hay = true := by
  intro n hay h
  cases hay with
  | nil => simpa [listHas] using h
  | cons c t => simp [listHas, h]

theorem listHas_drop_left : ∀ xs ys hay : List Char,
    listStarts (xs ++ ys) hay = true → listHas ys hay = true := by
  intro xs
  induction xs with
  | nil => intro ys hay h; exact listHas_of_starts ys hay (by simpa using h)
  | cons a as ih =>
    intro ys hay h
    cases hay with
    | nil => simp [listStarts] at h
    | cons b bs =>
      simp only [List.cons_append, listStarts, Bool.and_eq_true] at h
      have hh := ih ys bs h.2
      simp [listHas, hh]

theorem listHas_mono : ∀ xs ys hay : List Char,
    listHas (xs ++ ys) hay = true → listHas ys hay = true := by
  intro xs ys hay
  induction hay with
  | nil =>
    intro h
    cases xs with
    | nil => simpa using h
    | cons a as => simp [listHas, listStarts] at h
  | cons c t ih =>
    intro h
    rw [listHas] at h
    rcases Bool.or_eq_true_iff.mp h with h' | h'
    · exact listHas_drop_left xs ys (c :: t) h'
    · have := ih h'
      rw [listHas]
      simp [this]

theorem strHas_stereo_of_analog (line : String) :
    strHas line "Analog Stereo" = true → strHas line "Stereo" = true := by
  intro h
  have hsplit : ("Analog Stereo").toList = ("Analog ").toList ++ ("Stereo").toList := by
    decide
  unfold strHas at h ⊢
  rw [hsplit] at h
  exact listHas_mono _ _ _ h

theorem locateLoop_eq_find? (meta : String → Option String) :
    ∀ l : List String, locateLoop meta l = l.find? (deviceQualifies meta) := by
  intro l
  induction l with
  | nil => rfl
  | cons d rest ih =>
    cases hm : meta d with
    | none =>
      have hq : deviceQualifies meta d = false := by simp [deviceQualifies, hm]
      simp [locateLoop, hm, List.find?, hq, ih]
    | some ue =>
      cases hA : strHas (pyUpper ue) VENDOR_ID with
      | false =>
        have hq : deviceQualifies meta d = false := by
          simp [deviceQualifies, hm, ueventQualifies, hA]
        simp [locateLoop, hm, hA, List.find?, hq, ih]
      | true =>
        cases hB : PRODUCT_IDS.any fun pid => strHas (pyUpper ue) pid with
        | false =>
          have hq : deviceQualifies meta d = false := by
            simp [deviceQualifies, hm, ueventQualifies, hA, hB]
          simp [locateLoop, hm, hA, hB, List.find?, hq, ih]
        | true =>
          cases hC : strHas (pyUpper ue) "INPUT4" with
          | false =>
            have hq : deviceQualifies meta d = false := by
              simp [deviceQualifies, hm, ueventQualifies, hA, hB, hC]
            simp [locateLoop, hm, hA, hB, hC, List.find?, hq, ih]
          | true =>
            have hq : deviceQualifies meta d = true := by
              simp [deviceQualifies, hm, ueventQualifies, hA, hB, hC]
            simp [locateLoop, hm, hA, hB, hC, List.find?, hq]

theorem findSinkLoop_cons_matched (pat line : String) (rest : List String) (n : Nat)
    (hsinks : strHas line "Sinks:" = false)
    (hterm : (strHas line ":" && !strHas line "│") = false)
    (hmatch : strHas (pyLower line) (pyLower pat) = true)
    (hstereo : (strHas line "Analog Stereo" || strHas line "Stereo") = true)
    (hext : extractId line = some n) :
    findSinkLoop pat true (line :: rest) = some n := by
  simp only [extractId] at hext
  simp only [findSinkLoop, hsinks, hterm, hmatch, hstereo, Bool.true_and,
    Bool.false_eq_true, if_false, if_true]
  by_cases hlen : (pySplitOn line '.').length ≥ 2
  · rw [if_pos hlen] at hext ⊢
    cases hg : (pySplitWs (pyTrim ((pySplitOn line '.').headD ""))).getLast? with
    | none => rw [hg] at hext; exact absurd hext (by simp)
    | some np =>
      rw [hg] at hext
      simp only [hg]
      by_cases hd : pyIsDigit np = true
      · rw [if_pos hd]
        simpa [hd] using hext
      · simp [hd] at hext
  · rw [if_neg hlen] at hext; exact absurd hext (by simp)

theorem findSinkLoop_skips_unmatched (pat line : String) (rest : List String)
    (flag : Bool)
    (hsinks : strHas line "Sinks:" = false)
    (hterm : (flag && (strHas line ":" && !strHas line "│")) = false)
    (hskip : strHas (pyLower line) (pyLower pat) = false ∨
      (strHas line "Analog Stereo" || strHas line "Stereo") = false) :
    findSinkLoop pat flag (line :: rest) = findSinkLoop pat flag rest := by
  rcases hskip with hm | hst
  · simp [findSinkLoop, hsinks, hterm, hm]
  · cases hm : flag && strHas (pyLower line) (pyLower pat) with
    | false => simp [findSinkLoop, hsinks, hterm, hm]
    | true => simp [findSinkLoop, hsinks, hterm, hm, hst]

/-! ## Claims -/

/-- Claim C1: the main loop is edge-triggered.  Starting from the initial
sentinel (`last_state = None`), the sequence of switch actions invoked
over any sequence of poll outcomes is exactly one action per maximal run
of identical non-Unknown outcomes (the run's state, mapped to its switch
direction) — so a poll outcome equal to the last-known state invokes no
switch, and an Unknown (`None`) outcome invokes no switch and leaves the
last-known state unchanged. -/
theorem main_loop_edge_triggered :
    (∀ seq : List (Option HS),
      runLoop none seq = (onePerRun (seq.filterMap id)).map targetFor) ∧
    (∀ last : Option HS, loopIter last none = (last, none)) ∧
    (∀ s : HS, loopIter (some s) (some s) = (some s, none)) := by
  refine ⟨runLoop_none, fun last => ?_, fun s => ?_⟩
  · simp [loopIter]
  · simp [loopIter]

/-- Claim C2: status parsing is a pure function of the response bytes:
with the write succeeding, the device readable in time, and the read
returning `response`, a response shorter than 16 bytes polls as Unknown;
otherwise byte 15 decides: `0x01` → Offline (`"OFF"`), `0x08` or `0x02` →
Online (`"ON"`), anything else → Unknown. -/
theorem get_headset_state_parses_status :
    ∀ (env : CycleEnv) (response : List Nat),
      env.writeResult = .ok () →
      selectReadable env = true →
      env.readResult = .ok response →
      (response.length < 16 → get_headset_state env = none) ∧
      (16 ≤ response.length →
        (response.getD 15 0 = 0x01 → get_headset_state env = some HS.OFF) ∧
        ((response.getD 15 0 = 0x08 ∨ response.getD 15 0 = 0x02) →
          get_headset_state env = some HS.ON) ∧
        (response.getD 15 0 ≠ 0x01 → response.getD 15 0 ≠ 0x08 →
          response.getD 15 0 ≠ 0x02 → get_headset_state env = none)) := by
  intro env response hw hsel hr
  constructor
  · intro hlen
    simp [get_headset_state, hw, hsel, hr, hlen]
  · intro hlen
    have hlen' : ¬ response.length < 16 := by omega
    refine ⟨?_, ?_, ?_⟩
    · intro hbyte
      rw [List.getD_eq_getElem?_getD] at hbyte
      simp [get_headset_state, hw, hsel, hr, hlen', hbyte, HEADSET_OFFLINE]
    · intro hbyte
      have h1 : ¬ response.getD 15 0 = 1 := by rcases hbyte with h | h <;> omega
      rw [List.getD_eq_getElem?_getD] at hbyte h1
      simp [get_headset_state, hw, hsel, hr, hlen', HEADSET_OFFLINE, HEADSET_ONLINE,
        HEADSET_CHARGING, h1, hbyte]
    · intro h1 h8 h2
      rw [List.getD_eq_getElem?_getD] at h1 h8 h2
      simp [get_headset_state, hw, hsel, hr, hlen', HEADSET_OFFLINE, HEADSET_ONLINE,
        HEADSET_CHARGING, h1, h8, h2]

/-- Witness for C2 at a concrete 16-byte response with status byte `0x08`. -/
theorem get_headset_state_parses_status_witness :
    get_headset_state ⟨.ok (), some 0, .ok (List.replicate 15 0 ++ [8]), .ok "", .ok 0⟩ =
      some HS.ON := by
  have h := get_headset_state_parses_status
    ⟨.ok (), some 0, .ok (List.replicate 15 0 ++ [8]), .ok "", .ok 0⟩
    (List.replicate 15 0 ++ [8]) rfl (by decide) rfl
  exact (h.2 (by decide)).2.1 (Or.inl (by decide))

/-- Claim C3: the poll-outcome sequence
`[Unknown, Offline, Offline, Online, Unknown, Offline]` from the initial
sentinel invokes exactly three switches — speakers, headphones, speakers —
and the stated prefixes show each action is invoked at the claimed
position (the leading Unknown, the repeated Offline and the mid Unknown
invoke nothing). -/
theorem scenario_three_switches :
    runLoop none [none] = [] ∧
    runLoop none [none, some HS.OFF] = [SwitchTarget.Speakers] ∧
    runLoop none [none, some HS.OFF, some HS.OFF] = [SwitchTarget.Speakers] ∧
    runLoop none [none, some HS.OFF, some HS.OFF, some HS.ON] =
      [SwitchTarget.Speakers, SwitchTarget.Headphones] ∧
    runLoop none [none, some HS.OFF, some HS.OFF, some HS.ON, none] =
      [SwitchTarget.Speakers, SwitchTarget.Headphones] ∧
    runLoop none [none, some HS.OFF, some HS.OFF, some HS.ON, none, some HS.OFF] =
      [SwitchTarget.Speakers, SwitchTarget.Headphones, SwitchTarget.Speakers] := by
  decide

/-- Claim C4: the device locator is a deterministic function of the
node set.  It equals the first-qualifying-node scan of the sorted path
list, where a node qualifies exactly when its metadata is present and
(upper-cased) contains the vendor ID, one of the accepted product IDs
and the interface-4 marker; permuting the input paths never changes the
result; and when no node qualifies it returns `none` (NotFound). -/
theorem device_locator_deterministic :
    ∀ (meta : String → Option String) (paths paths' : List String),
      find_hidraw_device meta paths =
        (List.insertionSort pathLe paths).find? (deviceQualifies meta) ∧
      (paths.Perm paths' →
        find_hidraw_device meta paths = find_hidraw_device meta paths') ∧
      ((∀ d ∈ paths, deviceQualifies meta d = false) →
        find_hidraw_device meta paths = none) := by
  intro meta paths paths'
  refine ⟨locateLoop_eq_find? meta _, ?_, ?_⟩
  · intro hperm
    have h1 : List.Perm (List.insertionSort pathLe paths)
        (List.insertionSort pathLe paths') :=
      ((List.perm_insertionSort pathLe paths).trans hperm).trans
        (List.perm_insertionSort pathLe paths').symm
    have heq : List.insertionSort pathLe paths = List.insertionSort pathLe paths' :=
      List.eq_of_perm_of_sorted h1 (List.sorted_insertionSort pathLe paths)
        (List.sorted_insertionSort pathLe paths')
    unfold find_hidraw_device
    rw [heq]
  · intro hall
    have : find_hidraw_device meta paths =
        (List.insertionSort pathLe paths).find? (deviceQualifies meta) :=
      locateLoop_eq_find? meta _
    rw [this]
    apply List.find?_eq_none.mpr
    intro x hx
    have hxp : x ∈ paths := by simpa using hx
    simp [hall x hxp]

/-- Witness for C4: the sorted-scan shape, permutation invariance and
the NotFound case, each at a concrete node table. -/
theorem device_locator_deterministic_witness :
    find_hidraw_device sampleMeta ["/dev/hidraw5", "/dev/hidraw3", "/dev/hidraw4"] =
      (List.insertionSort pathLe
        ["/dev/hidraw5", "/dev/hidraw3", "/dev/hidraw4"]).find?
        (deviceQualifies sampleMeta) ∧
    find_hidraw_device sampleMeta ["/dev/hidraw5", "/dev/hidraw3", "/dev/hidraw4"] =
      find_hidraw_device sampleMeta ["/dev/hidraw4", "/dev/hidraw5", "/dev/hidraw3"] ∧
    find_hidraw_device (fun _ => none) ["/dev/hidraw0"] = none := by
  have h1 := device_locator_deterministic sampleMeta
    ["/dev/hidraw5", "/dev/hidraw3", "/dev/hidraw4"]
    ["/dev/hidraw4", "/dev/hidraw5", "/dev/hidraw3"]
  have h2 := device_locator_deterministic (fun _ => none) ["/dev/hidraw0"] []
  exact ⟨h1.1, h1.2.1 (by decide), h2.2.2 (by decide)⟩

/-- Claim C8: when the device does not become readable within the 500 ms
`select` bound after the command is written (including never becoming
readable at all), the poll returns Unknown instead of reading. -/
theorem poll_timeout_returns_unknown :
    ∀ env : CycleEnv, env.readyAt.all (fun t => SELECT_TIMEOUT_MS < t) = true →
      get_headset_state env = none := by
  intro env h
  have hsel : selectReadable env = false := by
    unfold selectReadable
    cases hr : env.readyAt with
    | none => rfl
    | some t =>
      rw [hr] at h
      simp only [Option.all_some] at h
      simp only [decide_eq_true_eq] at h
      simp [SELECT_TIMEOUT_MS] at h ⊢
      omega
  unfold get_headset_state
  cases env.writeResult with
  | error e => rfl
  | ok u => simp [hsel]

/-- Witness for C8: a device that would answer Online, but only becomes
readable 501 ms after the write, polls as Unknown. -/
theorem poll_timeout_returns_unknown_witness :
    get_headset_state ⟨.ok (), some 501, .ok (List.replicate 16 8), .ok "", .ok 0⟩ =
      none :=
  poll_timeout_returns_unknown
    ⟨.ok (), some 501, .ok (List.replicate 16 8), .ok "", .ok 0⟩ (by decide)

/-- Counterexample to Claim C6 as stated: not every error arising inside
a single switch cycle is contained.  In `envSpawnFail` the poll, the
state logic and the sink lookup all succeed, but spawning
`wpctl set-default` raises — `switch_audio` has no `try`/`except` around
that call and `main` catches only `KeyboardInterrupt`, so the cycle
aborts with the exception instead of continuing. -/
theorem cycle_error_escapes_loop :
    (mainCycle (some HS.ON) envSpawnFail).isOk = false := by decide

/-- Claim C5: sink selection.  (1) Lines before the `Sinks:` marker never
affect the scan; (2) inside the section, the first entry matching the
name pattern case-insensitively and carrying the stereo descriptor has
its leading numeric identifier returned, with non-matching section lines
skipped; (3) when the lookup yields nothing, `switch_audio` warns and
issues no `set-default` command; (4) in the synthetic listing with raw
entry 49 and stereo entry 52 under the same name, 52 is selected (never
the raw entry) and `set-default 52` is issued. -/
theorem sink_switch_selects_stereo_entry :
    (∀ (pat : String) (p rest : List String),
      (∀ l ∈ p, strHas l "Sinks:" = false) →
      findSinkLoop pat false (p ++ rest) = findSinkLoop pat false rest) ∧
    (∀ (pat line : String) (pre rest : List String) (n : Nat),
      (∀ l ∈ pre, strHas l "Sinks:" = false ∧
        (strHas l ":" && !strHas l "│") = false ∧
        (strHas (pyLower l) (pyLower pat) = false ∨
          (strHas l "Analog Stereo" || strHas l "Stereo") = false)) →
      strHas line "Sinks:" = false →
      (strHas line ":" && !strHas line "│") = false →
      strHas (pyLower line) (pyLower pat) = true →
      (strHas line "Analog Stereo" || strHas line "Stereo") = true →
      extractId line = some n →
      findSinkLoop pat true (pre ++ line :: rest) = some n) ∧
    (∀ (pat : String) (env : CycleEnv),
      find_sink_id pat env.statusStdout = none →
      switch_audio pat env = .ok ⟨true, none⟩) ∧
    (find_sink_id HEADPHONE_SINK_NAME (.ok wpctlOut52) = some 52 ∧
      switch_audio HEADPHONE_SINK_NAME
        ⟨.ok (), some 0, .ok (List.replicate 15 0 ++ [8]), .ok wpctlOut52, .ok 0⟩ =
        .ok ⟨true, some 52⟩) := by
  refine ⟨?_, ?_, ?_, by decide, by rfl⟩
  · intro pat p rest h
    induction p with
    | nil => rfl
    | cons l p' ih =>
      have hl := h l (List.mem_cons_self l p')
      have h' := fun x hx => h x (List.mem_cons_of_mem l hx)
      simp only [List.cons_append, findSinkLoop, hl, Bool.false_and,
        Bool.false_eq_true, if_false]
      exact ih h'
  · intro pat line pre rest n
    induction pre with
    | nil =>
      intro hpre hs ht hm hst hext
      simpa using findSinkLoop_cons_matched pat line rest n hs ht hm hst hext
    | cons l pre' ih =>
      intro hpre hs ht hm hst hext
      obtain ⟨h1, h2, h3⟩ := hpre l (List.mem_cons_self l pre')
      have hpre' := fun x hx => hpre x (List.mem_cons_of_mem l hx)
      rw [List.cons_append,
        findSinkLoop_skips_unmatched pat l (pre' ++ line :: rest) true h1
          (by simp [h2]) h3]
      exact ih hpre' hs ht hm hst hext
  · intro pat env h
    simp [switch_audio, h]

/-- Witness for C5: the section-scoping part at a prefix of two
non-marker lines, the first-match part at the raw-then-stereo pair of
section entries, and the NotFound part at an empty listing. -/
theorem sink_switch_selects_stereo_entry_witness :
    findSinkLoop "x" false (["junk line", "an:other"] ++ ["rest"]) =
      findSinkLoop "x" false ["rest"] ∧
    findSinkLoop HEADPHONE_SINK_NAME true
      ([" │      49. Arctis Nova Pro Wireless"] ++
        " │  *   52. Arctis Nova Pro Wireless Analog Stereo [vol: 0.95]" ::
          ["after"]) = some 52 ∧
    switch_audio "nomatch" ⟨.ok (), some 0, .ok [], .ok "empty", .ok 0⟩ =
      .ok ⟨true, none⟩ := by
  refine ⟨?_, ?_, ?_⟩
  · exact sink_switch_selects_stereo_entry.1 "x" ["junk line", "an:other"] ["rest"]
      (by decide)
  · exact sink_switch_selects_stereo_entry.2.1 HEADPHONE_SINK_NAME
      " │  *   52. Arctis Nova Pro Wireless Analog Stereo [vol: 0.95]"
      [" │      49. Arctis Nova Pro Wireless"] ["after"] 52
      (by decide) (by decide) (by decide) (by decide) (by decide) (by decide)
  · exact sink_switch_selects_stereo_entry.2.2.1 "nomatch"
      ⟨.ok (), some 0, .ok [], .ok "empty", .ok 0⟩ (by decide)

/-- Claim C10: the name-pattern match is case-insensitive but the stereo
descriptor check is case-sensitive: a scan over lines none of which
contains the exact substring `"Stereo"` selects nothing, whatever the
pattern; concretely, the listing whose entry 52 reads `analog stereo`
in lower case selects nothing, while the capitalised variant selects
52. -/
theorem stereo_descriptor_case_sensitive :
    (∀ (pat : String) (flag : Bool) (lines : List String),
      (∀ l ∈ lines, strHas l "Stereo" = false) →
      findSinkLoop pat flag lines = none) ∧
    find_sink_id HEADPHONE_SINK_NAME (.ok wpctlOut52lower) = none ∧
    find_sink_id HEADPHONE_SINK_NAME (.ok wpctlOut52) = some 52 := by
  refine ⟨?_, by decide, by decide⟩
  intro pat flag lines
  induction lines generalizing flag with
  | nil => intro h; rfl
  | cons line rest ih =>
    intro h
    have hline := h line (List.mem_cons_self line rest)
    have hrest := fun l hl => h l (List.mem_cons_of_mem line hl)
    have hanalog : strHas line "Analog Stereo" = false := by
      cases ha : strHas line "Analog Stereo" with
      | false => rfl
      | true =>
        rw [strHas_stereo_of_analog line ha] at hline
        exact absurd hline (by simp)
    cases hs : strHas line "Sinks:" with
    | true => simp [findSinkLoop, hs, ih true hrest]
    | false =>
      cases hterm : flag && (strHas line ":" && !strHas line "│") with
      | true => simp [findSinkLoop, hs, hterm]
      | false =>
        cases hm : flag && strHas (pyLower line) (pyLower pat) with
        | true => simp [findSinkLoop, hs, hterm, hm, hanalog, hline, ih flag hrest]
        | false => simp [findSinkLoop, hs, hterm, hm, ih flag hrest]

/-- Witness for C10: a section entry whose descriptor appears only in
lower case is not selected. -/
theorem stereo_descriptor_case_sensitive_witness :
    findSinkLoop "arctis" true
      [" │      52. arctis nova pro analog stereo [vol: 1.0]"] = none :=
  stereo_descriptor_case_sensitive.1 "arctis" true
    [" │      52. arctis nova pro analog stereo [vol: 1.0]"] (by decide)

/-- Claim C6 (amended): every error arising inside a single poll or
switch cycle — write/read I/O exception, timeout, short read,
sink-listing spawn failure, non-zero exit of either external command —
is contained to that cycle, EXCEPT an exception raised when spawning the
`set-default` command itself, which propagates and terminates the loop:
whenever that spawn does not raise, the cycle cannot abort. -/
theorem cycle_errors_contained_except_set_default :
    ∀ (last : Option HS) (env : CycleEnv),
      env.setDefaultResult.isOk = true → (mainCycle last env).isOk = true := by
  intro last env h
  cases hli : loopIter last (get_headset_state env) with
  | mk last' act =>
    cases act with
    | none => simp [mainCycle, hli, Except.isOk, Except.toBool]
    | some tgt =>
      cases hf : find_sink_id (patternFor tgt) env.statusStdout with
      | none => simp [mainCycle, hli, switch_audio, hf, Except.map, Except.isOk, Except.toBool]
      | some sink_id =>
        cases hsd : env.setDefaultResult with
        | error e => rw [hsd] at h; simp [Except.isOk, Except.toBool] at h
        | ok code =>
          simp [mainCycle, hli, switch_audio, hf, hsd, Except.map, Except.isOk, Except.toBool]

/-- Witness for the amended C6: a cycle in which the poll write raises,
the read would raise, and the `wpctl status` spawn raises, still
completes (all those errors are downgraded), given only that the
`set-default` spawn would not raise. -/
theorem cycle_errors_contained_except_set_default_witness :
    (mainCycle (some HS.ON)
      ⟨.error "OSError", some 0, .error "OSError", .error "FileNotFoundError", .ok 0⟩).isOk =
      true :=
  cycle_errors_contained_except_set_default (some HS.ON)
    ⟨.error "OSError", some 0, .error "OSError", .error "FileNotFoundError", .ok 0⟩
    (by decide)

/-- Claim C7: when a state transition's switch attempt finds no matching
sink, the last-known state is still updated to the new state, so a
subsequent poll returning that same state invokes no further switch
attempt. -/
theorem missed_switch_state_retained :
    ∀ (last : Option HS) (env env' : CycleEnv) (s : HS),
      get_headset_state env = some s →
      last ≠ some s →
      find_sink_id (patternFor (targetFor s)) env.statusStdout = none →
      mainCycle last env = .ok (some s, ⟨true, none⟩) ∧
      (get_headset_state env' = some s →
        mainCycle (some s) env' = .ok (some s, ⟨false, none⟩)) := by
  intro last env env' s hpoll hne hfind
  constructor
  · have hne' : some s ≠ last := fun h => hne h.symm
    simp [mainCycle, hpoll, loopIter, hne', switch_audio, hfind, Except.map]
  · intro hpoll'
    simp [mainCycle, hpoll', loopIter]

/-- Witness for C7: a concrete Offline transition whose speaker lookup
misses updates the state, and the following identical poll is a no-op. -/
theorem missed_switch_state_retained_witness :
    mainCycle none envMiss = .ok (some HS.OFF, ⟨true, none⟩) ∧
    mainCycle (some HS.OFF) envMiss = .ok (some HS.OFF, ⟨false, none⟩) := by
  have h := missed_switch_state_retained none envMiss envMiss HS.OFF
    (by decide) (by decide) (by decide)
  exact ⟨h.1, h.2 (by decide)⟩

/-- Claim C9: the process exits with code 1 when no device node matches
at startup, and when the located node cannot be opened for permissions;
when initialization succeeds and every executed cycle completes, the
interrupt ends the run with the handle closed and exit code 0. -/
theorem process_exit_codes :
    ∀ m : MainEnv,
      (find_hidraw_device m.meta m.paths = none → mainRun m = ⟨1, false⟩) ∧
      ((find_hidraw_device m.meta m.paths).isSome = true → m.openOk = false →
        mainRun m = ⟨1, false⟩) ∧
      ((find_hidraw_device m.meta m.paths).isSome = true → m.openOk = true →
        (runCycles none m.cycles).isOk = true → mainRun m = ⟨0, true⟩) := by
  intro m
  refine ⟨?_, ?_, ?_⟩
  · intro hf
    simp [mainRun, hf]
  · intro hf hopen
    cases hd : find_hidraw_device m.meta m.paths with
    | none => rw [hd] at hf; simp at hf
    | some d => simp [mainRun, hd, hopen]
  · intro hf hopen hcycles
    cases hd : find_hidraw_device m.meta m.paths with
    | none => rw [hd] at hf; simp at hf
    | some d =>
      cases hc : runCycles none m.cycles with
      | error e => rw [hc] at hcycles; simp [Except.isOk, Except.toBool] at hcycles
      | ok lastv => simp [mainRun, hd, hopen, hc]

/-- Witness for C9: the three exit paths at concrete process
environments — no qualifying node, permission failure on open, and a
clean interrupt after one uneventful cycle. -/
theorem process_exit_codes_witness :
    mainRun ⟨["/dev/hidraw0"], fun _ => none, true, []⟩ = ⟨1, false⟩ ∧
    mainRun ⟨["/dev/hidraw4"], sampleMeta, false, []⟩ = ⟨1, false⟩ ∧
    mainRun ⟨["/dev/hidraw4"], sampleMeta, true, [envMiss]⟩ = ⟨0, true⟩ := by
  refine ⟨?_, ?_, ?_⟩
  · exact (process_exit_codes ⟨["/dev/hidraw0"], fun _ => none, true, []⟩).1 (by decide)
  · exact (process_exit_codes ⟨["/dev/hidraw4"], sampleMeta, false, []⟩).2.1
      (by decide) (by decide)
  · exact (process_exit_codes ⟨["/dev/hidraw4"], sampleMeta, true, [envMiss]⟩).2.2
      (by decide) (by decide) (by decide)
